import Mathlib

/-!
Verification of the in-memory project store of the DevMasters repository.

The definitions below are a shallow embedding of `src/app/database.py` and
`src/app/models/project.py` (the draft wired through `src/app/routes/projects.py`),
plus the update handler of the alternative draft `src/app/routers/projects.py`.
Python strings are modelled over their ASCII extent: the regex class for word
characters is modelled as ASCII alphanumerics plus underscore, the whitespace
class as the six ASCII whitespace characters, and lower-casing as ASCII
lower-casing.  Timestamps are modelled as natural numbers supplied by the
caller (the code reads the clock; here the clock value is a parameter).
-/

/-- ASCII extent of the regex word-character class used in
`models/project.py` (`[^\w\s-]`): alphanumerics plus underscore. -/
def isPyWord (c : Char) : Bool := c.isAlphanum || c == '_'

/-- ASCII extent of the regex whitespace class and of the default
`str.split()` separators: space, tab, newline, carriage return,
vertical tab, form feed. -/
def isPySpace (c : Char) : Bool :=
  c == ' ' || c == '\t' || c == '\n' || c == '\r' || c == '\x0b' || c == '\x0c'

/-- `str.lower()` over ASCII. -/
def pyLower (s : String) : String := String.mk (s.data.map Char.toLower)

/-- Accumulator-style embedding of Python `str.split()` (split on whitespace,
dropping empty parts).  `acc` holds the reversed current word. -/
def pySplitGo : List Char → List Char → List (List Char)
  | [], acc => if acc.isEmpty then [] else [acc.reverse]
  | c :: rest, acc =>
    if isPySpace c then
      if acc.isEmpty then pySplitGo rest [] else acc.reverse :: pySplitGo rest []
    else
      pySplitGo rest (c :: acc)

/-- Python `str.split()` on a character list. -/
def pySplit (l : List Char) : List (List Char) := pySplitGo l []

/-- Python `' '.join(words)` on character lists. -/
def joinSp : List (List Char) → List Char
  | [] => []
  | [w] => w
  | w :: ws => w ++ ' ' :: joinSp ws

/-- The characters kept by `re.sub(r'[^\w\s-]', '', v)`:  word characters,
whitespace and the hyphen survive, everything else is removed. -/
def keepTitleChar (c : Char) : Bool := isPyWord c || isPySpace c || c == '-'

/-- Title sanitization of `ProjectBase.validate_title`
(`models/project.py` lines 60-68): remove the characters matched by
`[^\w\s-]`, then `' '.join(v.split())`. -/
def ProjectBase.sanitize_title (v : String) : String :=
  String.mk (joinSp (pySplit (v.data.filter keepTitleChar)))

/-- Title sanitization of `ProjectUpdate.validate_title`
(`models/project.py` lines 90-99), the branch taken when a title is
supplied; written out from its own source lines. -/
def ProjectUpdate.sanitize_title (v : String) : String :=
  String.mk (joinSp (pySplit (v.data.filter keepTitleChar)))

/-- A C0 control character or DEL, the class `[\x00-\x1F\x7F]` of
`validate_description`. -/
def isControlChar (c : Char) : Bool := c.toNat ≤ 0x1F || c.toNat == 0x7F

/-- Description sanitization of `ProjectBase.validate_description`
(`models/project.py` lines 70-74): remove C0 controls and DEL. -/
def ProjectBase.sanitize_description (v : String) : String :=
  String.mk (v.data.filter (fun c => !isControlChar c))

/-- Description sanitization of `ProjectUpdate.validate_description`
(`models/project.py` lines 101-106), the branch taken when a description
is supplied. -/
def ProjectUpdate.sanitize_description (v : String) : String :=
  String.mk (v.data.filter (fun c => !isControlChar c))

inductive ProjectPriority where
  | HIGH
  | MEDIUM
  | LOW
deriving DecidableEq

inductive ProjectStatus where
  | PLANNED
  | IN_PROGRESS
  | COMPLETED
  | CANCELLED
deriving DecidableEq

/-- `ProjectStatus.get_valid_transitions` (`models/project.py` lines 27-36). -/
def ProjectStatus.get_valid_transitions : ProjectStatus → List ProjectStatus
  | .PLANNED => [.IN_PROGRESS, .CANCELLED]
  | .IN_PROGRESS => [.COMPLETED, .CANCELLED]
  | .COMPLETED => []
  | .CANCELLED => []

/-- Errors raised by pydantic validation of the models.  Pydantic aggregates
all field errors into one `ValidationError`; this model reports one of them,
which is enough to distinguish success from failure. -/
inductive ValidationError where
  | titleLength
  | titleEmptyAfterSanitization
  | descriptionLength
  | updatedAtBeforeCreatedAt
deriving DecidableEq

/-- A stored project record (`Project` in `models/project.py`): the fields of
`ProjectBase` plus id and the two timestamps added by `BaseSchema`. -/
structure Project where
  id : Nat
  title : String
  description : String
  priority : ProjectPriority
  status : ProjectStatus
  created_at : Nat
  updated_at : Nat
deriving DecidableEq

/-- A validated `ProjectCreate` payload: the sanitized field values that
pydantic hands to the store. -/
structure ProjectCreate where
  title : String
  description : String
  priority : ProjectPriority
  status : ProjectStatus
deriving DecidableEq

/-- Pydantic validation of a `ProjectCreate` body.  Field constraints
(`min_length`/`max_length`) run on the raw input before the `@validator`
functions, which then sanitize; `status` defaults to PLANNED when absent. -/
def ProjectCreate.validate (title description : String)
    (priority : ProjectPriority) (status : Option ProjectStatus) :
    Except ValidationError ProjectCreate :=
  if title.length < 3 || 100 < title.length then
    .error .titleLength
  else
    let t := ProjectBase.sanitize_title title
    if t.isEmpty then
      .error .titleEmptyAfterSanitization
    else if description.length < 10 || 2000 < description.length then
      .error .descriptionLength
    else
      .ok ⟨t, ProjectBase.sanitize_description description, priority,
           status.getD ProjectStatus.PLANNED⟩

/-- A validated `ProjectUpdate` payload; `none` models a field absent from
the request body (pydantic `exclude_unset`). -/
structure ProjectUpdate where
  title : Option String
  description : Option String
  priority : Option ProjectPriority
  status : Option ProjectStatus
deriving DecidableEq

/-- Pydantic validation of a `ProjectUpdate` body: each supplied field is
checked against its length constraints on the raw input and then sanitized;
absent fields are skipped.  `validate_status_transition` on the model tests
whether the key `status` is among the previously validated fields of the
same payload, which never holds, so it accepts every status at this layer;
the transition check lives in `Database.update_project`. -/
def ProjectUpdate.validate (title description : Option String)
    (priority : Option ProjectPriority) (status : Option ProjectStatus) :
    Except ValidationError ProjectUpdate :=
  match title with
  | some tRaw =>
    if tRaw.length < 3 || 100 < tRaw.length then
      .error .titleLength
    else
      let t := ProjectUpdate.sanitize_title tRaw
      if t.isEmpty then
        .error .titleEmptyAfterSanitization
      else
        match description with
        | some dRaw =>
          if dRaw.length < 10 || 2000 < dRaw.length then
            .error .descriptionLength
          else
            .ok ⟨some t, some (ProjectUpdate.sanitize_description dRaw), priority, status⟩
        | none => .ok ⟨some t, none, priority, status⟩
  | none =>
    match description with
    | some dRaw =>
      if dRaw.length < 10 || 2000 < dRaw.length then
        .error .descriptionLength
      else
        .ok ⟨none, some (ProjectUpdate.sanitize_description dRaw), priority, status⟩
    | none => .ok ⟨none, none, priority, status⟩

/-- The errors a store call can raise: the typed `DatabaseError` subclasses
of `database.py`, plus the pydantic `ValidationError` that escapes
`create_project` when `Project(...)` re-validation fails (the route layer
maps that one to a 500). -/
inductive DbError where
  | projectNotFound
  | duplicateTitle
  | invalidStatusTransition
  | validation (e : ValidationError)
deriving DecidableEq

/-- The store state: the `projects` dict (keyed by `Project.id`, in insertion
order), the id counter, and the keys of the per-project lock dict. -/
structure Database where
  projects : List Project
  counter : Nat
  project_locks : List Nat
deriving DecidableEq

/-- `Database.__init__`. -/
def Database.init : Database := ⟨[], 0, []⟩

/-- `Database._validate_title_unique` as a test: is there a live project whose
lower-cased title equals the candidate's and whose id is not the excluded one
(`project.id != exclude_id`, where comparison with `None` is always true)? -/
def titleConflictExists (projects : List Project) (title : String)
    (exclude_id : Option Nat) : Bool :=
  projects.any (fun p =>
    pyLower p.title == pyLower title &&
      (match exclude_id with
       | none => true
       | some e => !(p.id == e)))

/-- `Database._get_project_lock`: create the per-id lock entry if absent. -/
def Database.acquire_lock (db : Database) (project_id : Nat) : Database :=
  if db.project_locks.contains project_id then db
  else { db with project_locks := db.project_locks ++ [project_id] }

/-- `Database.get_project`. -/
def Database.get_project (db : Database) (project_id : Nat) :
    Except DbError Project :=
  match db.projects.find? (fun p => p.id == project_id) with
  | some p => .ok p
  | none => .error .projectNotFound

/-- The validation pydantic performs at
`Project(id=..., created_at=now, updated_at=now, **project.model_dump())`
(`database.py` lines 118-123): the field constraints inherited from
`ProjectBase` re-check the already-sanitized title and description lengths,
the inherited validators sanitize again, and `Project.validate_updated_at`
(`models/project.py` lines 119-125) rejects `updated_at < created_at`.  Its
second check, `updated_at` in the future, compares against a clock reading
taken after `now` and cannot fire at this call site under a monotone clock,
so it is not modelled. -/
def Project.construct (id : Nat) (pc : ProjectCreate) (created_at updated_at : Nat) :
    Except ValidationError Project :=
  if pc.title.length < 3 || 100 < pc.title.length then
    .error .titleLength
  else
    let t := ProjectBase.sanitize_title pc.title
    if t.isEmpty then
      .error .titleEmptyAfterSanitization
    else if pc.description.length < 10 || 2000 < pc.description.length then
      .error .descriptionLength
    else if updated_at < created_at then
      .error .updatedAtBeforeCreatedAt
    else
      .ok ⟨id, t, ProjectBase.sanitize_description pc.description, pc.priority,
           pc.status, created_at, updated_at⟩

/-- `Database.create_project`; `now` is the clock reading.  The duplicate
check precedes every mutation; then the counter is incremented, and
`Project(...)` construction re-validates the payload — when it raises, the
counter increment survives but no record is stored. -/
def Database.create_project (db : Database) (pc : ProjectCreate) (now : Nat) :
    Except DbError Project × Database :=
  if titleConflictExists db.projects pc.title none then
    (.error .duplicateTitle, db)
  else
    match Project.construct (db.counter + 1) pc now now with
    | .error e => (.error (.validation e), { db with counter := db.counter + 1 })
    | .ok db_project =>
      (.ok db_project,
        { db with counter := db.counter + 1,
                  projects := db.projects ++ [db_project] })

/-- The write-back loop of `Database.update_project`: each supplied field is
written onto the record, then `updated_at` is set to `now`. -/
def applyUpdate (db_project : Project) (pu : ProjectUpdate) (now : Nat) : Project :=
  { db_project with
    title := pu.title.getD db_project.title
    description := pu.description.getD db_project.description
    priority := pu.priority.getD db_project.priority
    status := pu.status.getD db_project.status
    updated_at := now }

/-- `Database.update_project`.  The per-id lock entry is created first (even
when the id turns out to be absent); then not-found, duplicate-title and
status-transition checks run in source order; on success the supplied fields
are written onto the record in place and `updated_at` is set to `now`. -/
def Database.update_project (db : Database) (project_id : Nat)
    (pu : ProjectUpdate) (now : Nat) : Except DbError Project × Database :=
  let dbL := db.acquire_lock project_id
  match dbL.projects.find? (fun p => p.id == project_id) with
  | none => (.error .projectNotFound, dbL)
  | some db_project =>
    if (match pu.title with
        | some t => titleConflictExists dbL.projects t (some project_id)
        | none => false) then
      (.error .duplicateTitle, dbL)
    else if (match pu.status with
             | some s => decide (s ∉ ProjectStatus.get_valid_transitions db_project.status)
             | none => false) then
      (.error .invalidStatusTransition, dbL)
    else
      (.ok (applyUpdate db_project pu now),
        { dbL with projects :=
            dbL.projects.map (fun p =>
              if p.id == project_id then applyUpdate db_project pu now else p) })

/-- `Database.delete_project`: not-found check, removal of the per-id lock
entry if present, removal of the record. -/
def Database.delete_project (db : Database) (project_id : Nat) :
    Except DbError Unit × Database :=
  if (db.projects.find? (fun p => p.id == project_id)).isSome then
    (.ok (),
      { db with
        projects := db.projects.eraseP (fun p => p.id == project_id)
        project_locks := db.project_locks.erase project_id })
  else
    (.error .projectNotFound, db)

/-- Python substring test `needle in haystack` on character lists. -/
def isSubstring (needle : List Char) : List Char → Bool
  | [] => needle.isEmpty
  | c :: rest => needle.isPrefixOf (c :: rest) || isSubstring needle rest

/-- `Database._filter_projects`: exact status and priority filters, then a
case-insensitive substring search over title and description.  A `None`
filter — and, by Python truthiness, an empty search string — is skipped. -/
def Database.filter_projects (db : Database) (status : Option ProjectStatus)
    (priority : Option ProjectPriority) (search : Option String) : List Project :=
  let filtered := db.projects
  let filtered :=
    match status with
    | none => filtered
    | some s => filtered.filter (fun p => p.status == s)
  let filtered :=
    match priority with
    | none => filtered
    | some pr => filtered.filter (fun p => p.priority == pr)
  match search with
  | none => filtered
  | some s =>
    if s.isEmpty then filtered
    else
      filtered.filter (fun p =>
        isSubstring (pyLower s).data (pyLower p.title).data ||
        isSubstring (pyLower s).data (pyLower p.description).data)

/-- The `ProjectList` response model. -/
structure ProjectList where
  items : List Project
  total : Nat
  page : Nat
  size : Nat
  pages : Nat
deriving DecidableEq

/-- `Database.get_projects`: filter, count, `pages = (total + size - 1) // size`,
clamp the page, slice `filtered[start:start + size]`.  The route layer
guarantees `1 ≤ size` (query constraint `ge=1`). -/
def Database.get_projects (db : Database) (page size : Nat)
    (status : Option ProjectStatus) (priority : Option ProjectPriority)
    (search : Option String) : ProjectList :=
  let filtered := db.filter_projects status priority search
  let total := filtered.length
  let pages := (total + size - 1) / size
  let page := if 0 < pages then max 1 (min page pages) else 1
  let start := (page - 1) * size
  ⟨(filtered.drop start).take size, total, page, size, pages⟩

/-! ## The alternative draft `src/app/routers/projects.py`

This draft keeps its records in a plain dict and rejects attempts to change
`id` / `data_criacao` through update.  Its pydantic models are imported from a
module that is not present in the repository; only their use sites are. -/

/-- Modelled from the spec: the record type of the `routers/projects.py`
draft (`ProjectResponse`), whose defining module is missing from the
repository.  Field names follow the draft's use sites (`titulo`,
`data_criacao`); ids are modelled as naturals. -/
structure RouterProject where
  id : Nat
  titulo : String
  descricao : String
  prioridade : Nat
  status : String
  data_criacao : Nat
deriving DecidableEq

/-- Modelled from the spec: the update payload (`ProjectUpdate`) of the
`routers/projects.py` draft, whose defining module is missing from the
repository.  Per the spec's design note the rejecting iteration lets a
request supply `id` and `data_criacao`, so the payload carries them as
optional fields; `none` models a field absent from the body
(`exclude_unset`). -/
structure RouterProjectUpdate where
  id : Option Nat
  titulo : Option String
  descricao : Option String
  prioridade : Option Nat
  status : Option String
  data_criacao : Option Nat
deriving DecidableEq

/-- The HTTP error outcomes of the `routers/projects.py` update handler. -/
inductive RouterError where
  | notFound
  | conflict
  | badRequest
deriving DecidableEq

/-- `check_title_exists` of `routers/projects.py` (lines 21-26). -/
def check_title_exists (projects_db : List RouterProject) (title : String)
    (exclude_id : Option Nat) : Bool :=
  projects_db.any (fun p =>
    pyLower p.titulo == pyLower title &&
      (match exclude_id with
       | none => true
       | some e => !(p.id == e)))

/-- The update handler of `routers/projects.py` (lines 122-161): not-found
check, duplicate-title check, rejection of a supplied `id` or `data_criacao`,
then `model_copy(update=update_data)` written back under the same key. -/
def router_update_project (projects_db : List RouterProject) (project_id : Nat)
    (pu : RouterProjectUpdate) : Except RouterError RouterProject × List RouterProject :=
  match projects_db.find? (fun p => p.id == project_id) with
  | none => (.error .notFound, projects_db)
  | some current_project =>
    if (match pu.titulo with
        | some t => check_title_exists projects_db t (some project_id)
        | none => false) then
      (.error .conflict, projects_db)
    else if pu.id.isSome || pu.data_criacao.isSome then
      (.error .badRequest, projects_db)
    else
      let updated : RouterProject :=
        { id := pu.id.getD current_project.id
          titulo := pu.titulo.getD current_project.titulo
          descricao := pu.descricao.getD current_project.descricao
          prioridade := pu.prioridade.getD current_project.prioridade
          status := pu.status.getD current_project.status
          data_criacao := pu.data_criacao.getD current_project.data_criacao }
      (.ok updated,
        projects_db.map (fun p => if p.id == project_id then updated else p))

/-! ## Spec-side sanitization pipelines (for the refinement claim C9) -/

inductive Op where
  | createOp (title description : String) (priority : ProjectPriority)
      (status : Option ProjectStatus) (now : Nat)
  | updateOp (id : Nat) (title description : Option String)
      (priority : Option ProjectPriority) (status : Option ProjectStatus) (now : Nat)
  | deleteOp (id : Nat)

/-- One request against the store: the resulting state, and the id returned
by a successful create (`none` otherwise). -/
def stepOp (db : Database) : Op → Database × Option Nat
  | .createOp t d pr st now =>
    match ProjectCreate.validate t d pr st with
    | .error _ => (db, none)
    | .ok pc =>
      match db.create_project pc now with
      | (.ok proj, db') => (db', some proj.id)
      | (.error _, db') => (db', none)
  | .updateOp id t d pr st now =>
    match ProjectUpdate.validate t d pr st with
    | .error _ => (db, none)
    | .ok pu => ((db.update_project id pu now).2, none)
  | .deleteOp id => ((db.delete_project id).2, none)

/-- Run a request trace; also returns the ids handed out by the successful
creates of the trace, in order. -/
def execTrace : Database → List Op → Database × List Nat
  | db, [] => (db, [])
  | db, op :: ops =>
    let s := stepOp db op
    let r := execTrace s.1 ops
    (r.1, s.2.toList ++ r.2)

/-! ## Basic facts about the embedding -/

theorem Database.acquire_lock_projects (db : Database) (pid : Nat) :
    (db.acquire_lock pid).projects = db.projects := by
  unfold Database.acquire_lock
  split <;> rfl

theorem Database.acquire_lock_counter (db : Database) (pid : Nat) :
    (db.acquire_lock pid).counter = db.counter := by
  unfold Database.acquire_lock
  split <;> rfl

/-- Characterization of `update_project` once the record has been found:
title check, then status check, then in-place write-back. -/
theorem Database.update_project_of_find (db : Database) (pid : Nat)
    (pu : ProjectUpdate) (now : Nat) (old : Project)
    (hfind : db.projects.find? (fun p => p.id == pid) = some old) :
    db.update_project pid pu now =
      (if (match pu.title with
           | some t => titleConflictExists db.projects t (some pid)
           | none => false) then
        (.error .duplicateTitle, db.acquire_lock pid)
      else if (match pu.status with
               | some s => decide (s ∉ ProjectStatus.get_valid_transitions old.status)
               | none => false) then
        (.error .invalidStatusTransition, db.acquire_lock pid)
      else
        (.ok (applyUpdate old pu now),
          { (db.acquire_lock pid) with projects :=
              (db.projects.map (fun p =>
                if p.id == pid then applyUpdate old pu now else p)) })) := by
  unfold Database.update_project
  simp only [Database.acquire_lock_projects, hfind]

/-- `update_project` on an absent id: per-id lock entry created, then raise. -/
theorem Database.update_project_of_none (db : Database) (pid : Nat)
    (pu : ProjectUpdate) (now : Nat)
    (hfind : db.projects.find? (fun p => p.id == pid) = none) :
    db.update_project pid pu now = (.error .projectNotFound, db.acquire_lock pid) := by
  unfold Database.update_project
  simp only [Database.acquire_lock_projects, hfind]

theorem Database.update_project_projects_counter (db : Database) (pid : Nat)
    (pu : ProjectUpdate) (now : Nat) :
    (db.update_project pid pu now).2.counter = db.counter := by
  unfold Database.update_project
  rcases hfind : db.projects.find? (fun p => p.id == pid) with _ | old <;>
    simp only [Database.acquire_lock_projects, hfind] <;>
    [skip; split <;> [skip; split]] <;> simp [Database.acquire_lock_counter]

/-- Two live records with the same id are the same record when the live id
list has no duplicates (the dict-key invariant). -/
theorem mem_id_inj {ps : List Project}
    (h : (ps.map (fun p => p.id)).Nodup) {p q : Project}
    (hp : p ∈ ps) (hq : q ∈ ps) (hid : p.id = q.id) : p = q :=
  List.inj_on_of_nodup_map h hp hq hid

/-- Removing the dict entry of an id leaves no record with that id, given
the dict-key invariant. -/
theorem eraseP_id_not_mem {ps : List Project} {i : Nat}
    (h : (ps.map (fun p => p.id)).Nodup) :
    ∀ r ∈ ps.eraseP (fun p => p.id == i), r.id ≠ i := by
  induction ps with
  | nil => simp [List.eraseP]
  | cons a t ih =>
    have h' : (a.id :: t.map (fun p => p.id)).Nodup := by simpa using h
    rcases List.nodup_cons.mp h' with ⟨ha, ht⟩
    by_cases hai : a.id = i
    · rw [List.eraseP_cons_of_pos (by simpa using hai)]
      intro r hr hri
      exact ha (List.mem_map.mpr ⟨r, hr, hri.trans hai.symm⟩)
    · rw [List.eraseP_cons_of_neg (by simpa using hai)]
      intro r hr
      rcases List.mem_cons.mp hr with rfl | hr'
      · exact hai
      · exact ih ht r hr'

theorem find?_eraseP_id {ps : List Project} {i : Nat}
    (h : (ps.map (fun p => p.id)).Nodup) :
    (ps.eraseP (fun p => p.id == i)).find? (fun p => p.id == i) = none := by
  rw [List.find?_eq_none]
  intro r hr
  simpa using eraseP_id_not_mem h r hr

theorem joinSp_cons_length (w : List Char) (ws : List (List Char)) :
    (joinSp (w :: ws)).length ≤ w.length + 1 + (joinSp ws).length := by
  cases ws with
  | nil => simp [joinSp]
  | cons v vs => simp [joinSp]; omega

/-- Splitting on whitespace and re-joining with single spaces never makes a
string longer. -/
theorem joinSp_pySplitGo_length :
    ∀ (l acc : List Char), (joinSp (pySplitGo l acc)).length ≤ l.length + acc.length := by
  intro l
  induction l with
  | nil =>
    intro acc
    unfold pySplitGo
    by_cases hacc : acc.isEmpty
    · simp [hacc, joinSp]
    · simp only [hacc, if_false]
      simp [joinSp]
  | cons c rest ih =>
    intro acc
    by_cases hsp : isPySpace c
    · by_cases hacc : acc.isEmpty
      · simp only [pySplitGo, hsp, hacc, if_true]
        have := ih []
        simp at this ⊢
        omega
      · simp only [pySplitGo, hsp, hacc, if_true, if_false]
        have h1 := joinSp_cons_length acc.reverse (pySplitGo rest [])
        have h2 := ih []
        simp at h1 h2 ⊢
        omega
    · simp only [pySplitGo, hsp, if_false]
      have := ih (c :: acc)
      simp at this ⊢
      omega

theorem sanitize_title_length (s : String) :
    (ProjectBase.sanitize_title s).length ≤ s.length := by
  unfold ProjectBase.sanitize_title pySplit
  have h1 := joinSp_pySplitGo_length (s.data.filter keepTitleChar) []
  have h2 := List.length_filter_le keepTitleChar s.data
  simp only [List.length_nil, Nat.add_zero] at h1
  show (joinSp (pySplitGo (s.data.filter keepTitleChar) [])).length ≤ s.data.length
  omega

theorem ceil_div_pos_char {t s : Nat} (hs : 0 < s) (ht : 0 < t) :
    t ≤ ((t + s - 1) / s) * s ∧ (((t + s - 1) / s) - 1) * s < t ∧ 0 < (t + s - 1) / s := by
  have h1 : t + s - 1 = (t - 1) + s := by omega
  rw [h1, Nat.add_div_right _ hs]
  have h3 := Nat.div_add_mod (t - 1) s
  have h4 : (t - 1) % s < s := Nat.mod_lt _ hs
  have h5 : (t - 1) / s * s ≤ t - 1 := Nat.div_mul_le_self _ _
  refine ⟨?_, ?_, Nat.succ_pos _⟩
  · rw [Nat.add_mul, Nat.one_mul]
    have h6 : (t - 1) / s * s = s * ((t - 1) / s) := Nat.mul_comm _ _
    rw [h6]
    generalize s * ((t - 1) / s) = x at h3 ⊢
    generalize (t - 1) % s = m at h3 h4
    omega
  · simpa using Nat.lt_of_le_of_lt h5 (Nat.sub_lt ht Nat.one_pos)

theorem ceil_div_zero {s : Nat} (hs : 0 < s) : (0 + s - 1) / s = 0 :=
  Nat.div_eq_of_lt (by omega)


/-- What a successfully validated create body guarantees about its title:
it is the sanitized raw title, non-empty, and no longer than the raw title,
whose length was checked against 100 — but only the raw title was checked
against the lower bound 3. -/
theorem validate_create_title_ok {tRaw dRaw : String} {pr : ProjectPriority}
    {st : Option ProjectStatus} {pc : ProjectCreate}
    (h : ProjectCreate.validate tRaw dRaw pr st = .ok pc) :
    pc.title = ProjectBase.sanitize_title tRaw ∧ pc.title ≠ "" ∧ pc.title.length ≤ 100 := by
  unfold ProjectCreate.validate at h
  cases h1 : (decide (tRaw.length < 3) || decide (100 < tRaw.length)) with
  | true => rw [h1] at h; simp at h
  | false =>
    rw [h1] at h
    simp only [Bool.false_eq_true, if_false] at h
    cases h2 : (ProjectBase.sanitize_title tRaw).isEmpty with
    | true => simp only [h2, if_true] at h; simp at h
    | false =>
      simp only [h2, Bool.false_eq_true, if_false] at h
      cases h3 : (decide (dRaw.length < 10) || decide (2000 < dRaw.length)) with
      | true => rw [h3] at h; simp at h
      | false =>
        rw [h3] at h
        simp only [Bool.false_eq_true, if_false, Except.ok.injEq] at h
        subst h
        refine ⟨rfl, ?_, ?_⟩
        · show ProjectBase.sanitize_title tRaw ≠ ""
          intro he
          rw [he] at h2
          exact absurd h2 (by decide)
        · show (ProjectBase.sanitize_title tRaw).length ≤ 100
          have hlen := sanitize_title_length tRaw
          simp only [Bool.or_eq_false_iff, decide_eq_false_iff_not, not_lt] at h1
          omega

/-- What a successfully validated update body guarantees about a supplied
title: it is the sanitized raw title, non-empty, at most 100 characters. -/
theorem validate_update_title_ok {t d : Option String}
    {pr : Option ProjectPriority} {st : Option ProjectStatus} {pu : ProjectUpdate}
    (h : ProjectUpdate.validate t d pr st = .ok pu) (x : String)
    (hx : pu.title = some x) :
    x ≠ "" ∧ x.length ≤ 100 := by
  cases t with
  | none =>
    cases d with
    | none =>
      simp only [ProjectUpdate.validate] at h
      cases h
      simp at hx
    | some dRaw =>
      simp only [ProjectUpdate.validate] at h
      cases h3 : (decide (dRaw.length < 10) || decide (2000 < dRaw.length)) with
      | true => rw [h3] at h; simp at h
      | false =>
        rw [h3] at h
        simp only [Bool.false_eq_true, if_false, Except.ok.injEq] at h
        subst h
        simp at hx
  | some tRaw =>
    simp only [ProjectUpdate.validate] at h
    cases h1 : (decide (tRaw.length < 3) || decide (100 < tRaw.length)) with
    | true => rw [h1] at h; simp at h
    | false =>
      rw [h1] at h
      simp only [Bool.false_eq_true, if_false] at h
      cases h2 : (ProjectUpdate.sanitize_title tRaw).isEmpty with
      | true => simp only [h2, if_true] at h; simp at h
      | false =>
        simp only [h2, Bool.false_eq_true, if_false] at h
        have hfacts : x = ProjectUpdate.sanitize_title tRaw := by
          cases d with
          | none =>
            dsimp only at h
            simp only [Except.ok.injEq] at h
            subst h
            simpa using hx.symm
          | some dRaw =>
            dsimp only at h
            cases h3 : (decide (dRaw.length < 10) || decide (2000 < dRaw.length)) with
            | true => rw [h3] at h; simp at h
            | false =>
              rw [h3] at h
              simp only [Bool.false_eq_true, if_false, Except.ok.injEq] at h
              subst h
              simpa using hx.symm
        subst hfacts
        constructor
        · intro he
          rw [he] at h2
          exact absurd h2 (by decide)
        · have hlen := sanitize_title_length tRaw
          have hsame : ProjectUpdate.sanitize_title tRaw = ProjectBase.sanitize_title tRaw := rfl
          rw [hsame]
          simp only [Bool.or_eq_false_iff, decide_eq_false_iff_not, not_lt] at h1
          omega

theorem Database.create_project_err (db : Database) (pc : ProjectCreate) (now : Nat)
    (h : titleConflictExists db.projects pc.title none = true) :
    db.create_project pc now = (.error .duplicateTitle, db) := by
  unfold Database.create_project
  rw [h]
  simp

/-- What a successfully constructed record looks like: the re-sanitized
fields with the given id and timestamps, and in particular a non-empty title
of at most 100 characters. -/
theorem Project.construct_ok {id : Nat} {pc : ProjectCreate} {ca ua : Nat}
    {proj : Project} (h : Project.construct id pc ca ua = .ok proj) :
    proj = ⟨id, ProjectBase.sanitize_title pc.title,
      ProjectBase.sanitize_description pc.description, pc.priority, pc.status,
      ca, ua⟩ ∧
    proj.title ≠ "" ∧ proj.title.length ≤ 100 := by
  unfold Project.construct at h
  cases h1 : (decide (pc.title.length < 3) || decide (100 < pc.title.length)) with
  | true => rw [h1] at h; simp at h
  | false =>
    rw [h1] at h
    simp only [Bool.false_eq_true, if_false] at h
    cases h2 : (ProjectBase.sanitize_title pc.title).isEmpty with
    | true => simp only [h2, if_true] at h; simp at h
    | false =>
      simp only [h2, Bool.false_eq_true, if_false] at h
      cases h3 : (decide (pc.description.length < 10) ||
          decide (2000 < pc.description.length)) with
      | true => rw [h3] at h; simp at h
      | false =>
        rw [h3] at h
        simp only [Bool.false_eq_true, if_false] at h
        split_ifs at h with h4
        simp only [Except.ok.injEq] at h
        subst h
        refine ⟨rfl, ?_, ?_⟩
        · show ProjectBase.sanitize_title pc.title ≠ ""
          intro he
          rw [he] at h2
          exact absurd h2 (by decide)
        · show (ProjectBase.sanitize_title pc.title).length ≤ 100
          have hlen := sanitize_title_length pc.title
          simp only [Bool.or_eq_false_iff, decide_eq_false_iff_not, not_lt] at h1
          omega

/-- `Project(...)` construction succeeds exactly on payloads whose sanitized
fields still satisfy the re-checked constraints. -/
theorem Project.construct_ok_of_valid {id : Nat} {pc : ProjectCreate} {ca ua : Nat}
    (h1 : 3 ≤ pc.title.length) (h2 : pc.title.length ≤ 100)
    (h3 : (ProjectBase.sanitize_title pc.title).isEmpty = false)
    (h4 : 10 ≤ pc.description.length) (h5 : pc.description.length ≤ 2000)
    (h6 : ca ≤ ua) :
    Project.construct id pc ca ua =
      .ok ⟨id, ProjectBase.sanitize_title pc.title,
        ProjectBase.sanitize_description pc.description, pc.priority, pc.status,
        ca, ua⟩ := by
  unfold Project.construct
  have c1 : (decide (pc.title.length < 3) || decide (100 < pc.title.length)) = false := by
    simp only [Bool.or_eq_false_iff, decide_eq_false_iff_not, not_lt]
    omega
  have c2 : (decide (pc.description.length < 10) ||
      decide (2000 < pc.description.length)) = false := by
    simp only [Bool.or_eq_false_iff, decide_eq_false_iff_not, not_lt]
    omega
  rw [c1]
  simp only [Bool.false_eq_true, if_false, h3]
  rw [c2]
  simp only [Bool.false_eq_true, if_false]
  rw [if_neg (by omega : ¬ ua < ca)]

theorem Database.create_project_validation (db : Database) (pc : ProjectCreate)
    (now : Nat) (e : ValidationError)
    (hc : titleConflictExists db.projects pc.title none = false)
    (he : Project.construct (db.counter + 1) pc now now = .error e) :
    db.create_project pc now =
      (.error (.validation e), ⟨db.projects, db.counter + 1, db.project_locks⟩) := by
  unfold Database.create_project
  rw [hc]
  simp only [Bool.false_eq_true, if_false, he]

theorem Database.create_project_ok (db : Database) (pc : ProjectCreate)
    (now : Nat) (proj : Project)
    (hc : titleConflictExists db.projects pc.title none = false)
    (hk : Project.construct (db.counter + 1) pc now now = .ok proj) :
    db.create_project pc now =
      (.ok proj, ⟨db.projects ++ [proj], db.counter + 1, db.project_locks⟩) := by
  unfold Database.create_project
  rw [hc]
  simp only [Bool.false_eq_true, if_false, hk]

theorem Database.delete_project_found (db : Database) (pid : Nat)
    (h : (db.projects.find? (fun p => p.id == pid)).isSome = true) :
    db.delete_project pid =
      (.ok (), ⟨db.projects.eraseP (fun p => p.id == pid), db.counter,
        db.project_locks.erase pid⟩) := by
  unfold Database.delete_project
  rw [h]
  simp

theorem Database.delete_project_absent (db : Database) (pid : Nat)
    (h : (db.projects.find? (fun p => p.id == pid)).isSome = false) :
    db.delete_project pid = (.error .projectNotFound, db) := by
  unfold Database.delete_project
  rw [h]
  simp

/-- The in-place write-back never changes a record's id. -/
theorem applyUpdate_id (old : Project) (pu : ProjectUpdate) (now : Nat) :
    (applyUpdate old pu now).id = old.id := rfl

/-- The in-place write-back never changes a record's creation time. -/
theorem applyUpdate_created_at (old : Project) (pu : ProjectUpdate) (now : Nat) :
    (applyUpdate old pu now).created_at = old.created_at := rfl

/-- Outcome analysis of `update_project` at the level of the record list:
either the list is untouched (any raising path), or the found record is
replaced in place after the status-transition check passed. -/
theorem Database.update_project_cases (db : Database) (pid : Nat)
    (pu : ProjectUpdate) (now : Nat) :
    (db.update_project pid pu now).2.projects = db.projects ∨
    (∃ old, db.projects.find? (fun p => p.id == pid) = some old ∧
      old.id = pid ∧
      (∀ s, pu.status = some s → s ∈ ProjectStatus.get_valid_transitions old.status) ∧
      (db.update_project pid pu now).1 = .ok (applyUpdate old pu now) ∧
      (db.update_project pid pu now).2.projects =
        (db.projects.map (fun p =>
          if p.id == pid then applyUpdate old pu now else p))) := by
  rcases hf : db.projects.find? (fun p => p.id == pid) with _ | old
  · left
    rw [Database.update_project_of_none db pid pu now hf]
    exact Database.acquire_lock_projects db pid
  · rw [Database.update_project_of_find db pid pu now old hf]
    by_cases hT : (match pu.title with
        | some t => titleConflictExists db.projects t (some pid)
        | none => false) = true
    · left
      rw [if_pos hT]
      exact Database.acquire_lock_projects db pid
    · rw [if_neg hT]
      by_cases hS : (match pu.status with
          | some s => decide (s ∉ ProjectStatus.get_valid_transitions old.status)
          | none => false) = true
      · left
        rw [if_pos hS]
        exact Database.acquire_lock_projects db pid
      · rw [if_neg hS]
        right
        refine ⟨old, hf, by simpa using List.find?_some hf, ?_, rfl, rfl⟩
        intro s hs
        rw [hs] at hS
        simpa using hS

/-- Replacing the record with key `pid` in place leaves the key list
unchanged. -/
theorem map_id_update (ps : List Project) (pid : Nat) (old : Project)
    (pu : ProjectUpdate) (now : Nat) (hold : old.id = pid) :
    (ps.map (fun p => if p.id == pid then applyUpdate old pu now else p)).map
        (fun p => p.id) = ps.map (fun p => p.id) := by
  rw [List.map_map]
  apply List.map_congr_left
  intro a ha
  by_cases h : a.id = pid
  · simp [Function.comp, h, applyUpdate, hold]
  · simp [Function.comp, h]

/-- Dict-shape invariant of the store: live ids are positive, bounded by the
counter, and pairwise distinct. -/
def IdInv (db : Database) : Prop :=
  (∀ p ∈ db.projects, 1 ≤ p.id ∧ p.id ≤ db.counter) ∧
  (db.projects.map (fun p => p.id)).Nodup

/-- Relation between a store state and the ids handed out by the successful
creates so far: all bounded by the counter, pairwise distinct, and covering
every live record. -/
def HistOk (db : Database) (created : List Nat) : Prop :=
  (∀ i ∈ created, i ≤ db.counter) ∧ created.Nodup ∧
  ∀ p ∈ db.projects, p.id ∈ created

/-- The id counter never decreases across a request. -/
theorem stepOp_counter_mono (db : Database) (op : Op) :
    db.counter ≤ (stepOp db op).1.counter := by
  cases op with
  | createOp t d pr st now =>
    cases hv : ProjectCreate.validate t d pr st with
    | error e => simp [stepOp, hv]
    | ok pc =>
      cases hc : titleConflictExists db.projects pc.title none with
      | true =>
        simp only [stepOp, hv, Database.create_project_err db pc now hc]
        exact Nat.le_refl _
      | false =>
        cases hk : Project.construct (db.counter + 1) pc now now with
        | error e2 =>
          simp only [stepOp, hv, Database.create_project_validation db pc now e2 hc hk]
          simp
        | ok proj =>
          simp only [stepOp, hv, Database.create_project_ok db pc now proj hc hk]
          simp
  | updateOp id t d pr st now =>
    cases hv : ProjectUpdate.validate t d pr st with
    | error e => simp [stepOp, hv]
    | ok pu => simp [stepOp, hv, Database.update_project_projects_counter]
  | deleteOp id =>
    cases hd : (db.projects.find? (fun p => p.id == id)).isSome with
    | true =>
      simp only [stepOp, Database.delete_project_found db id hd]
      exact Nat.le_refl _
    | false =>
      simp only [stepOp, Database.delete_project_absent db id hd]
      exact Nat.le_refl _

/-- A successful create hands out exactly the incremented counter. -/
theorem stepOp_created_id (db : Database) (op : Op) (i : Nat)
    (h : (stepOp db op).2 = some i) :
    i = db.counter + 1 ∧ (stepOp db op).1.counter = db.counter + 1 := by
  cases op with
  | createOp t d pr st now =>
    cases hv : ProjectCreate.validate t d pr st with
    | error e => simp [stepOp, hv] at h
    | ok pc =>
      cases hc : titleConflictExists db.projects pc.title none with
      | true =>
        simp only [stepOp, hv, Database.create_project_err db pc now hc] at h
        simp at h
      | false =>
        cases hk : Project.construct (db.counter + 1) pc now now with
        | error e2 =>
          simp only [stepOp, hv,
            Database.create_project_validation db pc now e2 hc hk] at h
          simp at h
        | ok proj =>
          have hproj := (Project.construct_ok hk).1
          simp only [stepOp, hv, Database.create_project_ok db pc now proj hc hk] at h ⊢
          simp at h
          refine ⟨?_, trivial⟩
          rw [← h, hproj]
  | updateOp id t d pr st now =>
    cases hv : ProjectUpdate.validate t d pr st with
    | error e => simp [stepOp, hv] at h
    | ok pu => simp [stepOp, hv] at h
  | deleteOp id =>
    simp [stepOp] at h

/-- Every record live after a request either keeps the id of a record that
was live before, or carries the id of the create that the request performed. -/
theorem stepOp_mem_projects (db : Database) (op : Op) (p' : Project)
    (hp' : p' ∈ (stepOp db op).1.projects) :
    (∃ p ∈ db.projects, p'.id = p.id) ∨ (stepOp db op).2 = some p'.id := by
  cases op with
  | createOp t d pr st now =>
    cases hv : ProjectCreate.validate t d pr st with
    | error e =>
      simp only [stepOp, hv] at hp'
      exact .inl ⟨p', hp', rfl⟩
    | ok pc =>
      cases hc : titleConflictExists db.projects pc.title none with
      | true =>
        simp only [stepOp, hv, Database.create_project_err db pc now hc] at hp'
        exact .inl ⟨p', hp', rfl⟩
      | false =>
        cases hk : Project.construct (db.counter + 1) pc now now with
        | error e2 =>
          simp only [stepOp, hv,
            Database.create_project_validation db pc now e2 hc hk] at hp'
          exact .inl ⟨p', hp', rfl⟩
        | ok proj =>
          simp only [stepOp, hv,
            Database.create_project_ok db pc now proj hc hk] at hp' ⊢
          rcases List.mem_append.mp hp' with hold | hnew
          · exact .inl ⟨p', hold, rfl⟩
          · right
            simp at hnew
            simp [hnew]
  | updateOp id t d pr st now =>
    cases hv : ProjectUpdate.validate t d pr st with
    | error e =>
      simp only [stepOp, hv] at hp'
      exact .inl ⟨p', hp', rfl⟩
    | ok pu =>
      simp only [stepOp, hv] at hp'
      left
      rcases Database.update_project_cases db id pu now with hsame | ⟨old, hf, hoid, _, _, hmap⟩
      · rw [hsame] at hp'
        exact ⟨p', hp', rfl⟩
      · rw [hmap] at hp'
        rcases List.mem_map.mp hp' with ⟨q, hq, hfq⟩
        by_cases hqid : q.id = id
        · refine ⟨old, List.mem_of_find?_eq_some hf, ?_⟩
          rw [← hfq]
          simp [hqid, applyUpdate]
        · refine ⟨q, hq, ?_⟩
          rw [← hfq]
          simp [hqid]
  | deleteOp id =>
    left
    cases hd : (db.projects.find? (fun p => p.id == id)).isSome with
    | true =>
      simp only [stepOp, Database.delete_project_found db id hd] at hp'
      exact ⟨p', (List.eraseP_sublist db.projects).subset hp', rfl⟩
    | false =>
      simp only [stepOp, Database.delete_project_absent db id hd] at hp'
      exact ⟨p', hp', rfl⟩

/-- One request preserves the dict-shape invariant. -/
theorem stepOp_IdInv (db : Database) (op : Op) (h : IdInv db) :
    IdInv (stepOp db op).1 := by
  obtain ⟨hb, hn⟩ := h
  constructor
  · intro p' hp'
    rcases stepOp_mem_projects db op p' hp' with ⟨p, hp, hid⟩ | hcre
    · have h1 := hb p hp
      have h2 := stepOp_counter_mono db op
      omega
    · have h3 := stepOp_created_id db op p'.id hcre
      omega
  · cases op with
    | createOp t d pr st now =>
      cases hv : ProjectCreate.validate t d pr st with
      | error e => simpa [stepOp, hv] using hn
      | ok pc =>
        cases hc : titleConflictExists db.projects pc.title none with
        | true =>
          simp only [stepOp, hv, Database.create_project_err db pc now hc]
          exact hn
        | false =>
          cases hk : Project.construct (db.counter + 1) pc now now with
          | error e2 =>
            simp only [stepOp, hv,
              Database.create_project_validation db pc now e2 hc hk]
            exact hn
          | ok proj =>
            have hproj := (Project.construct_ok hk).1
            simp only [stepOp, hv, Database.create_project_ok db pc now proj hc hk]
            rw [List.map_append, List.nodup_append]
            refine ⟨hn, by simp, ?_⟩
            intro a ha hmem
            simp [hproj] at hmem
            rcases List.mem_map.mp ha with ⟨q, hq, hqa⟩
            have := hb q hq
            omega
    | updateOp id t d pr st now =>
      cases hv : ProjectUpdate.validate t d pr st with
      | error e => simpa [stepOp, hv] using hn
      | ok pu =>
        simp only [stepOp, hv]
        rcases Database.update_project_cases db id pu now with hsame |
          ⟨old, hf, hoid, _, _, hmap⟩
        · rw [hsame]
          exact hn
        · rw [hmap, map_id_update db.projects id old pu now hoid]
          exact hn
    | deleteOp id =>
      cases hd : (db.projects.find? (fun p => p.id == id)).isSome with
      | true =>
        simp only [stepOp, Database.delete_project_found db id hd]
        exact (((List.eraseP_sublist db.projects).map (fun p => p.id)).nodup hn)
      | false =>
        simp only [stepOp, Database.delete_project_absent db id hd]
        exact hn

/-- One request preserves the created-ids history relation. -/
theorem stepOp_HistOk (db : Database) (op : Op) (created : List Nat)
    (hh : HistOk db created) :
    HistOk (stepOp db op).1 (created ++ (stepOp db op).2.toList) := by
  obtain ⟨hhb, hhn, hhc⟩ := hh
  refine ⟨?_, ?_, ?_⟩
  · intro i hi
    rcases List.mem_append.mp hi with hiold | hinew
    · exact (hhb i hiold).trans (stepOp_counter_mono db op)
    · rcases ho : (stepOp db op).2 with _ | j
      · rw [ho] at hinew
        simp at hinew
      · rw [ho] at hinew
        simp at hinew
        have h4 := stepOp_created_id db op j ho
        omega
  · rcases ho : (stepOp db op).2 with _ | j
    · simpa [ho] using hhn
    · simp only [ho, Option.toList]
      rw [List.nodup_append]
      refine ⟨hhn, by simp, ?_⟩
      intro a ha hmem
      simp at hmem
      subst hmem
      have h4 := stepOp_created_id db op a ho
      have h5 := hhb a ha
      omega
  · intro p' hp'
    rcases stepOp_mem_projects db op p' hp' with ⟨p, hp, hid⟩ | hcre
    · refine List.mem_append.mpr (.inl ?_)
      rw [hid]
      exact hhc p hp
    · exact List.mem_append.mpr (.inr (by simp [hcre]))

/-- The dict-shape and history invariants hold along any request trace. -/
theorem execTrace_inv : ∀ (ops : List Op) (db : Database) (created : List Nat),
    IdInv db → HistOk db created →
    IdInv (execTrace db ops).1 ∧
    HistOk (execTrace db ops).1 (created ++ (execTrace db ops).2) := by
  intro ops
  induction ops with
  | nil =>
    intro db created h1 h2
    simpa [execTrace] using ⟨h1, h2⟩
  | cons op ops ih =>
    intro db created h1 h2
    have h1' := stepOp_IdInv db op h1
    have h2' := stepOp_HistOk db op created h2
    have h3 := ih (stepOp db op).1 (created ++ (stepOp db op).2.toList) h1' h2'
    simpa [execTrace, List.append_assoc] using h3

theorem applyUpdate_status (old : Project) (pu : ProjectUpdate) (now : Nat) :
    (applyUpdate old pu now).status = pu.status.getD old.status := rfl

/-- Along any single request, a surviving record's status either stays the
same or moves along an edge of the transition graph. -/
theorem stepOp_status_edge (db : Database) (op : Op) (p p' : Project)
    (hb : ∀ q ∈ db.projects, q.id ≤ db.counter)
    (hn : (db.projects.map (fun q => q.id)).Nodup)
    (hp : p ∈ db.projects) (hp' : p' ∈ (stepOp db op).1.projects)
    (hid : p'.id = p.id) :
    p'.status = p.status ∨
      p'.status ∈ ProjectStatus.get_valid_transitions p.status := by
  cases op with
  | createOp t d pr st now =>
    cases hv : ProjectCreate.validate t d pr st with
    | error e =>
      simp only [stepOp, hv] at hp'
      rw [mem_id_inj hn hp' hp hid]
      exact .inl rfl
    | ok pc =>
      cases hc : titleConflictExists db.projects pc.title none with
      | true =>
        simp only [stepOp, hv, Database.create_project_err db pc now hc] at hp'
        rw [mem_id_inj hn hp' hp hid]
        exact .inl rfl
      | false =>
        cases hk : Project.construct (db.counter + 1) pc now now with
        | error e2 =>
          simp only [stepOp, hv,
            Database.create_project_validation db pc now e2 hc hk] at hp'
          rw [mem_id_inj hn hp' hp hid]
          exact .inl rfl
        | ok proj =>
          have hproj := (Project.construct_ok hk).1
          simp only [stepOp, hv,
            Database.create_project_ok db pc now proj hc hk] at hp'
          rcases List.mem_append.mp hp' with hold | hnew
          · rw [mem_id_inj hn hold hp hid]
            exact .inl rfl
          · exfalso
            simp at hnew
            have h1 := hb p hp
            have h2 : p'.id = db.counter + 1 := by rw [hnew, hproj]
            omega
  | updateOp id t d pr st now =>
    cases hv : ProjectUpdate.validate t d pr st with
    | error e =>
      simp only [stepOp, hv] at hp'
      rw [mem_id_inj hn hp' hp hid]
      exact .inl rfl
    | ok pu =>
      simp only [stepOp, hv] at hp'
      rcases Database.update_project_cases db id pu now with hsame |
        ⟨old, hf, hoid, hedge, _, hmap⟩
      · rw [hsame] at hp'
        rw [mem_id_inj hn hp' hp hid]
        exact .inl rfl
      · rw [hmap] at hp'
        rcases List.mem_map.mp hp' with ⟨q, hq, hfq⟩
        by_cases hqid : q.id = id
        · have hp'eq : p' = applyUpdate old pu now := by
            rw [← hfq]
            simp [hqid]
          have hpid : p.id = old.id := by
            rw [← hid, hp'eq, applyUpdate_id]
          have hpold : p = old := mem_id_inj hn hp (List.mem_of_find?_eq_some hf) hpid
          subst hpold
          rw [hp'eq, applyUpdate_status]
          rcases hstat : pu.status with _ | s
          · exact .inl rfl
          · right
            simpa using hedge s hstat
        · have hp'q : p' = q := by
            rw [← hfq]
            simp [hqid]
          subst hp'q
          rw [mem_id_inj hn hq hp hid]
          exact .inl rfl
  | deleteOp id =>
    cases hd : (db.projects.find? (fun p => p.id == id)).isSome with
    | true =>
      simp only [stepOp, Database.delete_project_found db id hd] at hp'
      have hmem : p' ∈ db.projects := (List.eraseP_sublist db.projects).subset hp'
      rw [mem_id_inj hn hmem hp hid]
      exact .inl rfl
    | false =>
      simp only [stepOp, Database.delete_project_absent db id hd] at hp'
      rw [mem_id_inj hn hp' hp hid]
      exact .inl rfl

/-! ## Claim theorems -/

/-- A concrete store with one PLANNED project, used by the witnesses. -/
def wProj : Project :=
  ⟨1, "Build API", "Implement the REST layer", ProjectPriority.MEDIUM,
   ProjectStatus.PLANNED, 0, 0⟩

/-- A concrete one-record store state, used by the witnesses. -/
def wDb : Database := ⟨[wProj], 1, []⟩

/-- C10: no status appears in its own allowed-transition set, so a status
update that requests the record's current status — for any of the four
statuses — fails with `InvalidStatusTransition` rather than being accepted
as a no-op. -/
theorem no_self_transition (db : Database) (pid : Nat) (old : Project) (now : Nat)
    (hfind : db.projects.find? (fun p => p.id == pid) = some old) :
    (∀ s : ProjectStatus, s ∉ ProjectStatus.get_valid_transitions s) ∧
    (db.update_project pid ⟨none, none, none, some old.status⟩ now).1 =
      .error DbError.invalidStatusTransition := by
  have hself : ∀ s : ProjectStatus, s ∉ ProjectStatus.get_valid_transitions s := by
    intro s
    cases s <;> simp [ProjectStatus.get_valid_transitions]
  refine ⟨hself, ?_⟩
  rw [Database.update_project_of_find db pid ⟨none, none, none, some old.status⟩ now old hfind]
  simp [hself old.status]

theorem no_self_transition_witness :
    wDb.projects.find? (fun p => p.id == 1) = some wProj ∧
    ((∀ s : ProjectStatus, s ∉ ProjectStatus.get_valid_transitions s) ∧
     (wDb.update_project 1 ⟨none, none, none, some wProj.status⟩ 5).1 =
       .error DbError.invalidStatusTransition) :=
  ⟨rfl, no_self_transition wDb 1 wProj 5 rfl⟩

/-- C1: a status-only update of a live record succeeds exactly when the
requested status lies in the allowed-transition set of the current status
(PLANNED to IN_PROGRESS or CANCELLED, IN_PROGRESS to COMPLETED or CANCELLED,
COMPLETED and CANCELLED terminal), any other request fails with
`InvalidStatusTransition`, and along any request the status of a surviving
record only ever stays equal or moves along an edge of this graph. -/
theorem status_transitions_follow_graph (db : Database) (pid : Nat)
    (old : Project) (s' : ProjectStatus) (now : Nat)
    (hfind : db.projects.find? (fun p => p.id == pid) = some old) :
    ((db.update_project pid ⟨none, none, none, some s'⟩ now).1.isOk = true ↔
      s' ∈ ProjectStatus.get_valid_transitions old.status) ∧
    (s' ∉ ProjectStatus.get_valid_transitions old.status →
      (db.update_project pid ⟨none, none, none, some s'⟩ now).1 =
        .error DbError.invalidStatusTransition) ∧
    (∀ (db₂ : Database) (op : Op) (p p' : Project),
      (∀ q ∈ db₂.projects, q.id ≤ db₂.counter) →
      (db₂.projects.map (fun q => q.id)).Nodup →
      p ∈ db₂.projects → p' ∈ (stepOp db₂ op).1.projects → p'.id = p.id →
      p'.status = p.status ∨
        p'.status ∈ ProjectStatus.get_valid_transitions p.status) := by
  have hch := Database.update_project_of_find db pid ⟨none, none, none, some s'⟩ now old hfind
  refine ⟨?_, ?_, fun db₂ op p p' hb hn hp hp' hid =>
    stepOp_status_edge db₂ op p p' hb hn hp hp' hid⟩
  · rw [hch]
    by_cases hs : s' ∈ ProjectStatus.get_valid_transitions old.status
    · simp [hs, Except.isOk, Except.toBool]
    · simp [hs, Except.isOk, Except.toBool]
  · intro hs
    rw [hch]
    simp [hs]

theorem status_transitions_follow_graph_witness :
    wDb.projects.find? (fun p => p.id == 1) = some wProj ∧
    (((wDb.update_project 1 ⟨none, none, none, some ProjectStatus.COMPLETED⟩ 5).1.isOk = true ↔
      ProjectStatus.COMPLETED ∈ ProjectStatus.get_valid_transitions wProj.status) ∧
    (ProjectStatus.COMPLETED ∉ ProjectStatus.get_valid_transitions wProj.status →
      (wDb.update_project 1 ⟨none, none, none, some ProjectStatus.COMPLETED⟩ 5).1 =
        .error DbError.invalidStatusTransition) ∧
    (∀ (db₂ : Database) (op : Op) (p p' : Project),
      (∀ q ∈ db₂.projects, q.id ≤ db₂.counter) →
      (db₂.projects.map (fun q => q.id)).Nodup →
      p ∈ db₂.projects → p' ∈ (stepOp db₂ op).1.projects → p'.id = p.id →
      p'.status = p.status ∨
        p'.status ∈ ProjectStatus.get_valid_transitions p.status)) :=
  ⟨rfl, status_transitions_follow_graph wDb 1 wProj ProjectStatus.COMPLETED 5 rfl⟩

/-- C6: starting from the empty store, along any request trace the ids handed
out by successful creates are pairwise distinct (so deletion never frees an
id for reuse), the live set never holds two records with the same id, every
live record's id came from some create, the id counter never decreases, and
the id of any further successful create differs from every id ever handed
out before. -/
theorem create_ids_fresh (tr : List Op) :
    (execTrace Database.init tr).2.Nodup ∧
    ((execTrace Database.init tr).1.projects.map (fun p => p.id)).Nodup ∧
    (∀ p ∈ (execTrace Database.init tr).1.projects,
      p.id ∈ (execTrace Database.init tr).2) ∧
    (∀ op, (execTrace Database.init tr).1.counter ≤
      (stepOp (execTrace Database.init tr).1 op).1.counter) ∧
    (∀ op i, (stepOp (execTrace Database.init tr).1 op).2 = some i →
      i ∉ (execTrace Database.init tr).2) := by
  have hinit1 : IdInv Database.init := by
    constructor
    · intro p hp
      simp [Database.init] at hp
    · simp [Database.init]
  have hinit2 : HistOk Database.init [] := by
    refine ⟨?_, ?_, ?_⟩ <;> simp [Database.init, HistOk]
  have h := execTrace_inv tr Database.init [] hinit1 hinit2
  obtain ⟨⟨_hb, hn⟩, hh⟩ := h
  rw [List.nil_append] at hh
  obtain ⟨hhb, hhn, hhc⟩ := hh
  refine ⟨hhn, hn, hhc, fun op => stepOp_counter_mono _ op, ?_⟩
  intro op i hsome hmem
  have h4 := stepOp_created_id _ op i hsome
  have h5 := hhb i hmem
  omega

/-- C7: get and delete on an absent id fail with `NotFound` and leave the
store untouched; after a successful delete the record and its per-id lock
entry are gone, a get of the deleted id fails with `NotFound`, and a second
delete of it also fails with `NotFound` instead of crashing. -/
theorem delete_then_get_not_found (db : Database) (pid : Nat)
    (hnodupP : (db.projects.map (fun p => p.id)).Nodup)
    (hnodupL : db.project_locks.Nodup) :
    ((db.projects.find? (fun p => p.id == pid)).isSome = false →
      db.get_project pid = .error DbError.projectNotFound ∧
      db.delete_project pid = (.error DbError.projectNotFound, db)) ∧
    ((db.projects.find? (fun p => p.id == pid)).isSome = true →
      (db.delete_project pid).1 = .ok () ∧
      (db.delete_project pid).2.projects.find? (fun p => p.id == pid) = none ∧
      (db.delete_project pid).2.get_project pid = .error DbError.projectNotFound ∧
      ((db.delete_project pid).2.delete_project pid).1 =
        .error DbError.projectNotFound ∧
      pid ∉ (db.delete_project pid).2.project_locks) := by
  constructor
  · intro habs
    have hnone : db.projects.find? (fun p => p.id == pid) = none := by
      rcases hcase : db.projects.find? (fun p => p.id == pid) with _ | q
      · exact hcase
      · rw [hcase] at habs
        simp at habs
    constructor
    · unfold Database.get_project
      rw [hnone]
    · exact Database.delete_project_absent db pid habs
  · intro hsome
    rw [Database.delete_project_found db pid hsome]
    have hgone : (db.projects.eraseP (fun p => p.id == pid)).find?
        (fun p => p.id == pid) = none := find?_eraseP_id hnodupP
    refine ⟨rfl, hgone, ?_, ?_, ?_⟩
    · unfold Database.get_project
      rw [show (⟨db.projects.eraseP (fun p => p.id == pid), db.counter,
        db.project_locks.erase pid⟩ : Database).projects =
          db.projects.eraseP (fun p => p.id == pid) from rfl, hgone]
    · rw [Database.delete_project_absent _ pid (by simp [hgone])]
    · intro hmem
      exact ((List.Nodup.mem_erase_iff hnodupL).mp hmem).1 rfl

theorem delete_then_get_not_found_witness :
    ((wDb.projects.map (fun p => p.id)).Nodup ∧ wDb.project_locks.Nodup) ∧
    (((wDb.projects.find? (fun p => p.id == 1)).isSome = false →
      wDb.get_project 1 = .error DbError.projectNotFound ∧
      wDb.delete_project 1 = (.error DbError.projectNotFound, wDb)) ∧
    ((wDb.projects.find? (fun p => p.id == 1)).isSome = true →
      (wDb.delete_project 1).1 = .ok () ∧
      (wDb.delete_project 1).2.projects.find? (fun p => p.id == 1) = none ∧
      (wDb.delete_project 1).2.get_project 1 = .error DbError.projectNotFound ∧
      ((wDb.delete_project 1).2.delete_project 1).1 =
        .error DbError.projectNotFound ∧
      1 ∉ (wDb.delete_project 1).2.project_locks)) :=
  ⟨⟨by decide, by decide⟩,
    delete_then_get_not_found wDb 1 (by decide) (by decide)⟩

/-- C5: a successful update writes exactly the supplied fields, keeps `id`
and `created_at`, sets `updated_at` to the clock reading, and replaces only
that record in the store; every unsupplied field keeps its previous value. -/
theorem update_partial_fields (db : Database) (pid : Nat) (pu : ProjectUpdate)
    (now : Nat) (old proj : Project)
    (hfind : db.projects.find? (fun p => p.id == pid) = some old)
    (hok : (db.update_project pid pu now).1 = .ok proj) :
    proj.id = old.id ∧ proj.created_at = old.created_at ∧
    proj.updated_at = now ∧
    proj.title = pu.title.getD old.title ∧
    proj.description = pu.description.getD old.description ∧
    proj.priority = pu.priority.getD old.priority ∧
    proj.status = pu.status.getD old.status ∧
    (db.update_project pid pu now).2.projects =
      db.projects.map (fun p => if p.id == pid then proj else p) ∧
    (db.update_project pid pu now).2.counter = db.counter := by
  have hch := Database.update_project_of_find db pid pu now old hfind
  rw [hch] at hok
  split_ifs at hok with hT hS
  simp at hok
  subst hok
  rw [hch, if_neg hT, if_neg hS]
  exact ⟨rfl, rfl, rfl, rfl, rfl, rfl, rfl, rfl,
    Database.acquire_lock_counter db pid⟩

/-- The description-only update payload of the witness. -/
def wPu : ProjectUpdate := ⟨none, some ("An updated description"), none, none⟩

theorem update_partial_fields_witness :
    (wDb.projects.find? (fun p => p.id == 1) = some wProj ∧
     (wDb.update_project 1 wPu 7).1 = .ok (applyUpdate wProj wPu 7)) ∧
    ((applyUpdate wProj wPu 7).id = wProj.id ∧
     (applyUpdate wProj wPu 7).created_at = wProj.created_at ∧
     (applyUpdate wProj wPu 7).updated_at = 7 ∧
     (applyUpdate wProj wPu 7).title = wPu.title.getD wProj.title ∧
     (applyUpdate wProj wPu 7).description = wPu.description.getD wProj.description ∧
     (applyUpdate wProj wPu 7).priority = wPu.priority.getD wProj.priority ∧
     (applyUpdate wProj wPu 7).status = wPu.status.getD wProj.status ∧
     (wDb.update_project 1 wPu 7).2.projects =
       wDb.projects.map (fun p => if p.id == 1 then applyUpdate wProj wPu 7 else p) ∧
     (wDb.update_project 1 wPu 7).2.counter = wDb.counter) :=
  ⟨⟨rfl, rfl⟩, update_partial_fields wDb 1 wPu 7 wProj (applyUpdate wProj wPu 7) rfl rfl⟩

/-- C2 (amended): creating with a title equal case-insensitively to a live
title fails with `DuplicateTitle` and leaves the store unchanged; after
deleting the colliding record (unique, by the store's title-uniqueness
invariant) the same title is accepted, provided the payload's sanitized
fields still satisfy the length constraints that `Project(...)` re-checks at
construction — otherwise that re-validation raises instead. -/
theorem duplicate_title_create (db : Database) (pc : ProjectCreate)
    (now1 now2 : Nat) (p : Project) (hmem : p ∈ db.projects)
    (hcol : pyLower p.title = pyLower pc.title)
    (hnodup : (db.projects.map (fun q => q.id)).Nodup)
    (huniq : ∀ q ∈ db.projects, pyLower q.title = pyLower pc.title → q = p)
    (hT1 : 3 ≤ pc.title.length) (hT2 : pc.title.length ≤ 100)
    (hT3 : (ProjectBase.sanitize_title pc.title).isEmpty = false)
    (hD1 : 10 ≤ pc.description.length) (hD2 : pc.description.length ≤ 2000) :
    db.create_project pc now1 = (.error DbError.duplicateTitle, db) ∧
    (db.delete_project p.id).1 = .ok () ∧
    ((db.delete_project p.id).2.create_project pc now2).1 =
      .ok ⟨(db.delete_project p.id).2.counter + 1,
           ProjectBase.sanitize_title pc.title,
           ProjectBase.sanitize_description pc.description,
           pc.priority, pc.status, now2, now2⟩ := by
  have hc1 : titleConflictExists db.projects pc.title none = true := by
    simp only [titleConflictExists, List.any_eq_true]
    refine ⟨p, hmem, ?_⟩
    simp [hcol]
  have hfound : (db.projects.find? (fun q => q.id == p.id)).isSome = true := by
    rw [List.find?_isSome]
    exact ⟨p, hmem, by simp⟩
  have hc2 : titleConflictExists (db.projects.eraseP (fun q => q.id == p.id))
      pc.title none = false := by
    simp only [titleConflictExists]
    rw [List.any_eq_false]
    intro r hr hcon
    simp at hcon
    have hrmem : r ∈ db.projects := (List.eraseP_sublist db.projects).subset hr
    have hrp : r = p := huniq r hrmem hcon
    exact (eraseP_id_not_mem hnodup r hr) (by rw [hrp])
  refine ⟨Database.create_project_err db pc now1 hc1, ?_, ?_⟩
  · rw [Database.delete_project_found db p.id hfound]
  · rw [Database.delete_project_found db p.id hfound]
    have hk : Project.construct (db.counter + 1) pc now2 now2 =
        .ok ⟨db.counter + 1, ProjectBase.sanitize_title pc.title,
          ProjectBase.sanitize_description pc.description, pc.priority,
          pc.status, now2, now2⟩ :=
      Project.construct_ok_of_valid hT1 hT2 hT3 hD1 hD2 (Nat.le_refl now2)
    rw [Database.create_project_ok
      ⟨db.projects.eraseP (fun q => q.id == p.id), db.counter,
        db.project_locks.erase p.id⟩ pc now2 _ hc2 hk]

/-- A one-record store whose live title collides with the C2 counterexample
payload. -/
def wDb2 : Database :=
  ⟨[⟨1, "My Project", "0123456789", ProjectPriority.HIGH,
     ProjectStatus.PLANNED, 0, 0⟩], 1, []⟩

/-- C2 (counterexample): the raw description "012345678\x00" has 10
characters, so the payload passes request validation, but sanitization
strips the NUL and stores 9.  Against a live case-insensitive title
collision the create correctly fails with `DuplicateTitle`; after deleting
the collider, the re-create with the same title does NOT succeed — the
`Project(...)` re-validation inside `create_project` rejects the sanitized
9-character description — refuting the claim's unconditional "the same
title succeeds". -/
theorem duplicate_title_create_counterexample :
    ProjectCreate.validate ("My Project") ("012345678\x00")
      ProjectPriority.HIGH none =
      .ok ⟨"My Project", "012345678", ProjectPriority.HIGH,
           ProjectStatus.PLANNED⟩ ∧
    (wDb2.create_project ⟨"My Project", "012345678", ProjectPriority.HIGH,
      ProjectStatus.PLANNED⟩ 1).1 = .error DbError.duplicateTitle ∧
    (wDb2.delete_project 1).1 = .ok () ∧
    ((wDb2.delete_project 1).2.create_project ⟨"My Project", "012345678",
      ProjectPriority.HIGH, ProjectStatus.PLANNED⟩ 2).1 =
      .error (DbError.validation ValidationError.descriptionLength) ∧
    ((wDb2.delete_project 1).2.create_project ⟨"My Project", "012345678",
      ProjectPriority.HIGH, ProjectStatus.PLANNED⟩ 2).1.isOk = false :=
  ⟨rfl, rfl, rfl, rfl, rfl⟩

/-- The create payload colliding case-insensitively with `wProj`'s title. -/
def wPc : ProjectCreate :=
  ⟨"build API", "Implement the REST layer again", ProjectPriority.HIGH,
   ProjectStatus.PLANNED⟩

theorem duplicate_title_create_witness :
    (wProj ∈ wDb.projects ∧ pyLower wProj.title = pyLower wPc.title ∧
     (wDb.projects.map (fun q => q.id)).Nodup ∧
     (∀ q ∈ wDb.projects, pyLower q.title = pyLower wPc.title → q = wProj) ∧
     3 ≤ wPc.title.length ∧ wPc.title.length ≤ 100 ∧
     (ProjectBase.sanitize_title wPc.title).isEmpty = false ∧
     10 ≤ wPc.description.length ∧ wPc.description.length ≤ 2000) ∧
    (wDb.create_project wPc 3 = (.error DbError.duplicateTitle, wDb) ∧
     (wDb.delete_project wProj.id).1 = .ok () ∧
     ((wDb.delete_project wProj.id).2.create_project wPc 4).1 =
       .ok ⟨(wDb.delete_project wProj.id).2.counter + 1,
            ProjectBase.sanitize_title wPc.title,
            ProjectBase.sanitize_description wPc.description,
            wPc.priority, wPc.status, 4, 4⟩) :=
  ⟨⟨by decide, by decide, by decide, by decide, by decide, by decide,
    by decide, by decide, by decide⟩,
   duplicate_title_create wDb wPc 3 4 wProj (by decide) (by decide)
     (by decide) (by decide) (by decide) (by decide) (by decide)
     (by decide) (by decide)⟩

/-- Arithmetic of the page computation: `pages` is the ceiling of
`total / size` and the clamp lands in `[1, pages]` (1 when empty). -/
theorem pageMath (total size page : Nat) (hp : 1 ≤ page) (hs : 1 ≤ size) :
    (total = 0 → (total + size - 1) / size = 0 ∧
      (if 0 < (total + size - 1) / size then
        max 1 (min page ((total + size - 1) / size)) else 1) = 1) ∧
    (0 < total →
      (total ≤ ((total + size - 1) / size) * size ∧
       (((total + size - 1) / size) - 1) * size < total) ∧
      0 < (total + size - 1) / size ∧
      (if 0 < (total + size - 1) / size then
        max 1 (min page ((total + size - 1) / size)) else 1) =
        max 1 (min page ((total + size - 1) / size)) ∧
      1 ≤ max 1 (min page ((total + size - 1) / size)) ∧
      max 1 (min page ((total + size - 1) / size)) ≤ (total + size - 1) / size ∧
      (page ≤ (total + size - 1) / size →
        max 1 (min page ((total + size - 1) / size)) = page) ∧
      ((total + size - 1) / size < page →
        max 1 (min page ((total + size - 1) / size)) = (total + size - 1) / size)) := by
  constructor
  · intro h0
    subst h0
    have hz := ceil_div_zero (show 0 < size by omega)
    rw [hz]
    simp
  · intro hpos
    obtain ⟨h1, h2, h3⟩ := ceil_div_pos_char (show 0 < size by omega) hpos
    refine ⟨⟨h1, h2⟩, h3, if_pos h3, ?_, ?_, ?_, ?_⟩ <;> omega

/-- C3: list never fails (it is total by construction); it reports the
filtered count as `total`, computes `pages` as the ceiling of
`total / size`, clamps the requested page into `[1, pages]` (1 when the
filtered set is empty), and returns exactly the slice
`[(page-1)*size, page*size)` of the filtered sequence at the clamped page. -/
theorem pagination_clamps (db : Database) (page size : Nat)
    (status : Option ProjectStatus) (priority : Option ProjectPriority)
    (search : Option String) (hp : 1 ≤ page) (hs : 1 ≤ size) :
    (db.get_projects page size status priority search).total =
      (db.filter_projects status priority search).length ∧
    (db.get_projects page size status priority search).size = size ∧
    (db.get_projects page size status priority search).pages =
      ((db.filter_projects status priority search).length + size - 1) / size ∧
    ((db.filter_projects status priority search).length = 0 →
      (db.get_projects page size status priority search).pages = 0 ∧
      (db.get_projects page size status priority search).page = 1) ∧
    (0 < (db.filter_projects status priority search).length →
      ((db.filter_projects status priority search).length ≤
        (db.get_projects page size status priority search).pages * size ∧
       ((db.get_projects page size status priority search).pages - 1) * size <
        (db.filter_projects status priority search).length) ∧
      1 ≤ (db.get_projects page size status priority search).page ∧
      (db.get_projects page size status priority search).page ≤
        (db.get_projects page size status priority search).pages ∧
      (page ≤ (db.get_projects page size status priority search).pages →
        (db.get_projects page size status priority search).page = page) ∧
      ((db.get_projects page size status priority search).pages < page →
        (db.get_projects page size status priority search).page =
          (db.get_projects page size status priority search).pages)) ∧
    (db.get_projects page size status priority search).items =
      ((db.filter_projects status priority search).drop
        (((db.get_projects page size status priority search).page - 1) * size)).take
        size := by
  have hmath := pageMath (db.filter_projects status priority search).length
    size page hp hs
  refine ⟨rfl, rfl, rfl, ?_, ?_, rfl⟩
  · intro h0
    exact hmath.1 h0
  · intro hpos
    obtain ⟨hcb, hcp, hceq, hone, hle, hpeq, hpcl⟩ := hmath.2 hpos
    refine ⟨hcb, ?_, ?_, ?_, ?_⟩
    · show 1 ≤ (if 0 < ((db.filter_projects status priority search).length + size - 1) / size then
        max 1 (min page (((db.filter_projects status priority search).length + size - 1) / size)) else 1)
      rw [hceq]
      exact hone
    · show (if 0 < ((db.filter_projects status priority search).length + size - 1) / size then
        max 1 (min page (((db.filter_projects status priority search).length + size - 1) / size)) else 1) ≤ _
      rw [hceq]
      exact hle
    · intro hdir
      show (if 0 < ((db.filter_projects status priority search).length + size - 1) / size then
        max 1 (min page (((db.filter_projects status priority search).length + size - 1) / size)) else 1) = page
      rw [hceq]
      exact hpeq hdir
    · intro hdir
      show (if 0 < ((db.filter_projects status priority search).length + size - 1) / size then
        max 1 (min page (((db.filter_projects status priority search).length + size - 1) / size)) else 1) = _
      rw [hceq]
      exact hpcl hdir

/-- A 25-record store for the pagination witness. -/
def pageDemoDb : Database :=
  ⟨(List.range 25).map (fun i =>
     ⟨i + 1, "T", "D", ProjectPriority.MEDIUM, ProjectStatus.PLANNED, 0, 0⟩),
   25, []⟩

theorem pagination_clamps_witness :
    (1 ≤ 3 ∧ 1 ≤ 10) ∧
    ((pageDemoDb.get_projects 3 10 none none none).total =
      (pageDemoDb.filter_projects none none none).length ∧
    (pageDemoDb.get_projects 3 10 none none none).size = 10 ∧
    (pageDemoDb.get_projects 3 10 none none none).pages =
      ((pageDemoDb.filter_projects none none none).length + 10 - 1) / 10 ∧
    ((pageDemoDb.filter_projects none none none).length = 0 →
      (pageDemoDb.get_projects 3 10 none none none).pages = 0 ∧
      (pageDemoDb.get_projects 3 10 none none none).page = 1) ∧
    (0 < (pageDemoDb.filter_projects none none none).length →
      ((pageDemoDb.filter_projects none none none).length ≤
        (pageDemoDb.get_projects 3 10 none none none).pages * 10 ∧
       ((pageDemoDb.get_projects 3 10 none none none).pages - 1) * 10 <
        (pageDemoDb.filter_projects none none none).length) ∧
      1 ≤ (pageDemoDb.get_projects 3 10 none none none).page ∧
      (pageDemoDb.get_projects 3 10 none none none).page ≤
        (pageDemoDb.get_projects 3 10 none none none).pages ∧
      (3 ≤ (pageDemoDb.get_projects 3 10 none none none).pages →
        (pageDemoDb.get_projects 3 10 none none none).page = 3) ∧
      ((pageDemoDb.get_projects 3 10 none none none).pages < 3 →
        (pageDemoDb.get_projects 3 10 none none none).page =
          (pageDemoDb.get_projects 3 10 none none none).pages)) ∧
    (pageDemoDb.get_projects 3 10 none none none).items =
      ((pageDemoDb.filter_projects none none none).drop
        (((pageDemoDb.get_projects 3 10 none none none).page - 1) * 10)).take 10) ∧
    (pageDemoDb.get_projects 3 10 none none none).items.length = 5 ∧
    pageDemoDb.get_projects 99 10 none none none =
      pageDemoDb.get_projects 3 10 none none none :=
  ⟨⟨by decide, by decide⟩,
   pagination_clamps pageDemoDb 3 10 none none none (by decide) (by decide),
   by decide, by decide⟩

/-- `Forall₂` between a list and an in-place map over it, from the pointwise
relation. -/
theorem forall₂_map_self {α : Type} (R : α → α → Prop) (l : List α)
    (f : α → α) (h : ∀ a ∈ l, R a (f a)) : List.Forall₂ R l (l.map f) := by
  rw [List.forall₂_map_right_iff]
  exact List.forall₂_same.mpr h

/-- C4: an update request that supplies `id` or `data_criacao` never
succeeds; when no earlier error applies (the record exists and no title
conflict fires first) it is rejected with the validation error
(`BadRequest`), not silently ignored; and no update — successful or failed,
in the rejecting draft or in the store draft — ever changes a record's id or
creation timestamp. -/
theorem update_rejects_id_created_at (projects_db : List RouterProject)
    (pid : Nat) (pu : RouterProjectUpdate)
    (hsup : pu.id.isSome = true ∨ pu.data_criacao.isSome = true) :
    (router_update_project projects_db pid pu).1.isOk = false ∧
    (∀ current, projects_db.find? (fun p => p.id == pid) = some current →
      (match pu.titulo with
       | some t => check_title_exists projects_db t (some pid) = false
       | none => True) →
      (router_update_project projects_db pid pu).1 =
        .error RouterError.badRequest) ∧
    (∀ pu₂ : RouterProjectUpdate,
      (projects_db.map (fun p => p.id)).Nodup →
      List.Forall₂
        (fun p p₂ => p₂.id = p.id ∧ p₂.data_criacao = p.data_criacao)
        projects_db (router_update_project projects_db pid pu₂).2) ∧
    (∀ (db : Database) (pid₂ : Nat) (pu₃ : ProjectUpdate) (now : Nat),
      (db.projects.map (fun p => p.id)).Nodup →
      List.Forall₂ (fun p p₃ => p₃.id = p.id ∧ p₃.created_at = p.created_at)
        db.projects (db.update_project pid₂ pu₃ now).2.projects) := by
  refine ⟨?_, ?_, ?_, ?_⟩
  · unfold router_update_project
    rcases hf : projects_db.find? (fun p => p.id == pid) with _ | current
    · simp [hf, Except.isOk, Except.toBool]
    · by_cases hT : (match pu.titulo with
          | some t => check_title_exists projects_db t (some pid)
          | none => false) = true
      · simp [hf, hT, Except.isOk, Except.toBool]
      · simp [hf, hT, hsup, Except.isOk, Except.toBool]
  · intro current hf hT
    unfold router_update_project
    rw [hf]
    have hT' : (match pu.titulo with
        | some t => check_title_exists projects_db t (some pid)
        | none => false) = false := by
      rcases htl : pu.titulo with _ | t
      · rfl
      · rw [htl] at hT
        exact hT
    simp [hT', hsup]
  · intro pu₂ hnodup
    unfold router_update_project
    rcases hf : projects_db.find? (fun p => p.id == pid) with _ | current
    · rw [hf]
      exact List.forall₂_same.mpr (fun a _ => ⟨rfl, rfl⟩)
    · rw [hf]
      by_cases hT : (match pu₂.titulo with
          | some t => check_title_exists projects_db t (some pid)
          | none => false) = true
      · simp only [hT, if_true]
        exact List.forall₂_same.mpr (fun a _ => ⟨rfl, rfl⟩)
      · by_cases hG : (pu₂.id.isSome || pu₂.data_criacao.isSome) = true
        · simp only [hT, Bool.false_eq_true, if_false, hG, if_true]
          exact List.forall₂_same.mpr (fun a _ => ⟨rfl, rfl⟩)
        · have hGb : (pu₂.id.isSome || pu₂.data_criacao.isSome) = false := by
            simpa using hG
          have hg2 := hGb
          rw [Bool.or_eq_false_iff] at hg2
          simp only [hT, Bool.false_eq_true, if_false, hGb]
          apply forall₂_map_self
          intro a ha
          have hid : pu₂.id = none := by
            rcases h1 : pu₂.id with _ | v
            · rfl
            · rw [h1] at hg2
              simp at hg2
          have hdc : pu₂.data_criacao = none := by
            rcases h1 : pu₂.data_criacao with _ | v
            · rfl
            · rw [h1] at hg2
              simp at hg2
          by_cases haid : a.id = pid
          · have hcur : current.id = pid := by simpa using List.find?_some hf
            have hacur : a = current := by
              refine List.inj_on_of_nodup_map hnodup ha
                (List.mem_of_find?_eq_some hf) ?_
              rw [haid, hcur]
            simp only [haid, beq_self_eq_true, if_true]
            subst hacur
            rw [hid, hdc]
            exact ⟨haid, rfl⟩
          · simp [haid]
  · intro db pid₂ pu₃ now hnodup
    rcases Database.update_project_cases db pid₂ pu₃ now with hsame |
      ⟨old, hf, hoid, _, _, hmap⟩
    · rw [hsame]
      exact List.forall₂_same.mpr (fun a _ => ⟨rfl, rfl⟩)
    · rw [hmap]
      apply forall₂_map_self
      intro a ha
      by_cases haid : a.id = pid₂
      · have hacur : a = old := by
          refine List.inj_on_of_nodup_map hnodup ha
            (List.mem_of_find?_eq_some hf) ?_
          rw [haid, hoid]
        simp only [haid, beq_self_eq_true, if_true]
        subst hacur
        exact ⟨(applyUpdate_id a pu₃ now).trans haid, applyUpdate_created_at a pu₃ now⟩
      · simp [haid]

/-- A one-record store of the rejecting draft, for the witness. -/
def wRProj : RouterProject := ⟨1, "Projeto X", "Descricao X", 2, "Planejado", 0⟩

/-- An update payload supplying `id`, for the witness. -/
def wRPu : RouterProjectUpdate := ⟨some 9, none, none, none, none, none⟩

theorem update_rejects_id_created_at_witness :
    (wRPu.id.isSome = true ∨ wRPu.data_criacao.isSome = true) ∧
    ((router_update_project [wRProj] 1 wRPu).1.isOk = false ∧
    (∀ current, ([wRProj] : List RouterProject).find? (fun p => p.id == 1) = some current →
      (match wRPu.titulo with
       | some t => check_title_exists [wRProj] t (some 1) = false
       | none => True) →
      (router_update_project [wRProj] 1 wRPu).1 =
        .error RouterError.badRequest) ∧
    (∀ pu₂ : RouterProjectUpdate,
      (([wRProj] : List RouterProject).map (fun p => p.id)).Nodup →
      List.Forall₂
        (fun p p₂ => p₂.id = p.id ∧ p₂.data_criacao = p.data_criacao)
        [wRProj] (router_update_project [wRProj] 1 pu₂).2) ∧
    (∀ (db : Database) (pid₂ : Nat) (pu₃ : ProjectUpdate) (now : Nat),
      (db.projects.map (fun p => p.id)).Nodup →
      List.Forall₂ (fun p p₃ => p₃.id = p.id ∧ p₃.created_at = p.created_at)
        db.projects (db.update_project pid₂ pu₃ now).2.projects)) :=
  ⟨.inl rfl, update_rejects_id_created_at [wRProj] 1 wRPu (.inl rfl)⟩

/-- The stored-title invariant the amended C8 claims: non-empty, at most 100
characters. -/
def TitleInv (db : Database) : Prop :=
  ∀ p ∈ db.projects, p.title ≠ "" ∧ p.title.length ≤ 100

/-- C8 (counterexample): a create stores the 3-character title "abc"; an
update then supplies the raw title "ab!!", which passes the raw 3-100
length check, is sanitized to "ab", and is written back by `setattr` with
no re-validation — the live set now holds a 2-character title, refuting the
claimed 3-character lower bound on stored titles.  (The create path cannot
produce such a state: there `Project(...)` re-validates the sanitized
title.) -/
theorem stored_title_short_counterexample :
    ((execTrace Database.init
      [Op.createOp ("abc") ("0123456789") ProjectPriority.MEDIUM
        none 0]).1.projects.map (fun p => p.title)) = [("abc")] ∧
    ((execTrace Database.init
      [Op.createOp ("abc") ("0123456789") ProjectPriority.MEDIUM none 0,
       Op.updateOp 1 (some ("ab!!")) none none none 1]).1.projects.map
        (fun p => p.title)) = [("ab")] ∧
    ¬(3 ≤ ("ab").length) := by decide

/-- C8 (amended): every live title is non-empty and at most 100 characters,
an invariant preserved by every request — in particular by every successful
create and every successful update that supplies a title.  The 3-character
lower bound is not an invariant: create re-validates the sanitized title at
`Project(...)` construction, but update length-checks only the raw value and
writes the sanitized result back unchecked, so an update can shrink a stored
title below 3 characters (never to empty, never past 100). -/
theorem stored_title_sanitized_bounds (db : Database) (op : Op)
    (h : TitleInv db) : TitleInv (stepOp db op).1 := by
  intro p' hp'
  cases op with
  | createOp t d pr st now =>
    cases hv : ProjectCreate.validate t d pr st with
    | error e =>
      simp only [stepOp, hv] at hp'
      exact h p' hp'
    | ok pc =>
      cases hc : titleConflictExists db.projects pc.title none with
      | true =>
        simp only [stepOp, hv, Database.create_project_err db pc now hc] at hp'
        exact h p' hp'
      | false =>
        cases hk : Project.construct (db.counter + 1) pc now now with
        | error e2 =>
          simp only [stepOp, hv,
            Database.create_project_validation db pc now e2 hc hk] at hp'
          exact h p' hp'
        | ok proj =>
          obtain ⟨hproj, hne, hlen⟩ := Project.construct_ok hk
          simp only [stepOp, hv,
            Database.create_project_ok db pc now proj hc hk] at hp'
          rcases List.mem_append.mp hp' with hold | hnew
          · exact h p' hold
          · simp at hnew
            rw [hnew]
            exact ⟨hne, hlen⟩
  | updateOp id t d pr st now =>
    cases hv : ProjectUpdate.validate t d pr st with
    | error e =>
      simp only [stepOp, hv] at hp'
      exact h p' hp'
    | ok pu =>
      simp only [stepOp, hv] at hp'
      rcases Database.update_project_cases db id pu now with hsame |
        ⟨old, hf, hoid, _, _, hmap⟩
      · rw [hsame] at hp'
        exact h p' hp'
      · rw [hmap] at hp'
        rcases List.mem_map.mp hp' with ⟨q, hq, hfq⟩
        by_cases hqid : q.id = id
        · have hp'eq : p' = applyUpdate old pu now := by
            rw [← hfq]
            simp [hqid]
          rw [hp'eq]
          show (applyUpdate old pu now).title ≠ "" ∧
            (applyUpdate old pu now).title.length ≤ 100
          rcases ht : pu.title with _ | x
          · have hold2 := h old (List.mem_of_find?_eq_some hf)
            simpa [applyUpdate, ht] using hold2
          · have h3 := validate_update_title_ok hv x ht
            simp only [applyUpdate, ht, Option.getD]
            exact ⟨h3.1, h3.2⟩
        · have hp'q : p' = q := by
            rw [← hfq]
            simp [hqid]
          rw [hp'q]
          exact h q hq
  | deleteOp id =>
    cases hd : (db.projects.find? (fun p => p.id == id)).isSome with
    | true =>
      simp only [stepOp, Database.delete_project_found db id hd] at hp'
      exact h p' ((List.eraseP_sublist db.projects).subset hp')
    | false =>
      simp only [stepOp, Database.delete_project_absent db id hd] at hp'
      exact h p' hp'

theorem stored_title_sanitized_bounds_witness :
    TitleInv Database.init ∧
    TitleInv (stepOp Database.init (Op.createOp ("Valid Title") ("0123456789")
      ProjectPriority.LOW none 0)).1 :=
  ⟨by intro p hp; simp [Database.init] at hp,
   stored_title_sanitized_bounds Database.init
     (Op.createOp ("Valid Title") ("0123456789") ProjectPriority.LOW none 0)
     (by intro p hp; simp [Database.init] at hp)⟩

/-- A concrete trace: create, delete, create again (the second create must
get a fresh id). -/
def wTrace : List Op :=
  [Op.createOp ("First Project") ("0123456789") ProjectPriority.HIGH none 1,
   Op.deleteOp 1,
   Op.createOp ("First Project") ("0123456789") ProjectPriority.HIGH none 2]

theorem create_ids_fresh_witness :
    (execTrace Database.init wTrace).2.Nodup ∧
    ((execTrace Database.init wTrace).1.projects.map (fun p => p.id)).Nodup ∧
    (∀ p ∈ (execTrace Database.init wTrace).1.projects,
      p.id ∈ (execTrace Database.init wTrace).2) ∧
    (∀ op, (execTrace Database.init wTrace).1.counter ≤
      (stepOp (execTrace Database.init wTrace).1 op).1.counter) ∧
    (∀ op i, (stepOp (execTrace Database.init wTrace).1 op).2 = some i →
      i ∉ (execTrace Database.init wTrace).2) :=
  create_ids_fresh wTrace

